import Mathlib

/-!
Shallow embedding of the DoujinShelf frontend catalog logic
(`src/frontend/src/App.jsx`): the multi-criteria work filter
(`filteredWorks`), the extra-attribute object construction (`extraJson`),
and the dynamic extra-attribute row list of the registration form
(`addExtraRow` / `updateExtra` / `removeExtraRow` / `submit` /
`startEdit` / `cancelEdit`).

JavaScript strings are modelled as `List Char`; prices as `Rat`
(the form restricts price inputs to decimal numbers); purchase dates and
date bounds as already-parsed calendar instants `Int` (the JS code turns
the date strings into millisecond timestamps via `new Date(v).getTime()`;
`dateVal` maps the absent/empty string to `null`, modelled as `none`).
An absent JS field (`undefined`/`null`) is `none`.
-/

/-- JS strings, modelled as lists of characters. -/
abbrev Str := List Char

/-- `String.prototype.toLowerCase`, applied per character. -/
def jsLower (s : Str) : Str := s.map Char.toLower

/-- The `contains` helper of `filteredWorks`:
`(base, term) => q(base).includes(q(term))` where `q` lowercases.
`true` iff the lowercased `term` occurs contiguously in the lowercased
`base`. -/
def containsCI (base term : Str) : Bool :=
  decide (jsLower term <:+: jsLower base)

/-- A work record as delivered by the backend and consumed by the filter.
`author`, `circle`, `purchase_event` stand for the `name` field of the
corresponding optional sub-object (`w.author?.name` etc.);
`extra` is the string-keyed extra-attribute mapping in insertion order. -/
structure Work where
  title : Option Str
  author : Option Str
  circle : Option Str
  summary : Option Str
  purchase_event : Option Str
  tags : Option (List Str)
  extra : Option (List (Str × Str))
  price : Option Rat
  purchase_date : Option Int
  is_r18 : Option Bool
deriving DecidableEq

/-- The filter criteria configuration (the `filters` state object).
Text criteria are strings where the empty string means "unset"
(JS truthiness); `price_min`/`price_max` and `date_from`/`date_to` are
`none` when the corresponding input is empty, otherwise the parsed
number/instant; `is_r18` is the raw select value
(`"all"`, `"true"` or `"false"`). -/
structure Criteria where
  title : Str
  author : Str
  circle : Str
  summary : Str
  purchase_event : Str
  tags : Str
  extra : Str
  price_min : Option Rat
  price_max : Option Rat
  date_from : Option Int
  date_to : Option Int
  is_r18 : Str
deriving DecidableEq

/-- JS string escaping performed by `JSON.stringify` on a single
character: `"` and `\` are backslash-escaped, the control characters
`\b \t \n \f \r` get their two-character escapes, any other control
character below U+0020 becomes a `\u00XX` escape, and every other
character is kept as is. -/
def jsonEscapeChar (c : Char) : Str :=
  if c = Char.ofNat 34 then [Char.ofNat 92, Char.ofNat 34]
  else if c = Char.ofNat 92 then [Char.ofNat 92, Char.ofNat 92]
  else if c = Char.ofNat 8 then [Char.ofNat 92, 'b']
  else if c = Char.ofNat 9 then [Char.ofNat 92, 't']
  else if c = Char.ofNat 10 then [Char.ofNat 92, 'n']
  else if c = Char.ofNat 12 then [Char.ofNat 92, 'f']
  else if c = Char.ofNat 13 then [Char.ofNat 92, 'r']
  else if c.toNat < 32 then
    [Char.ofNat 92, 'u', '0', '0',
     (if c.toNat / 16 < 10 then Char.ofNat (48 + c.toNat / 16)
      else Char.ofNat (87 + c.toNat / 16)),
     (if c.toNat % 16 < 10 then Char.ofNat (48 + c.toNat % 16)
      else Char.ofNat (87 + c.toNat % 16))]
  else [c]

/-- A JSON string literal: the escaped characters between double quotes. -/
def jsonQuote (s : Str) : Str :=
  Char.ofNat 34 :: (s.map jsonEscapeChar).flatten ++ [Char.ofNat 34]

/-- `JSON.stringify` on a string-keyed object of string values, in
insertion order: `\x7b"k":"v",...\x7d`. -/
def jsonStringify (obj : List (Str × Str)) : Str :=
  Char.ofNat 123 ::
    (List.intercalate [','] (obj.map (fun kv => jsonQuote kv.1 ++ ':' :: jsonQuote kv.2)))
    ++ [Char.ofNat 125]

/-! The individual early-return conditions of the `works.filter` callback
in `filteredWorks`, one definition per `if (...) return false;` line. -/

/-- `filters.title && !contains(w.title, filters.title)`. -/
def titleFail (f : Criteria) (w : Work) : Bool :=
  !f.title.isEmpty && !containsCI (w.title.getD []) f.title

/-- `filters.author && !contains(w.author?.name, filters.author)`. -/
def authorFail (f : Criteria) (w : Work) : Bool :=
  !f.author.isEmpty && !containsCI (w.author.getD []) f.author

/-- `filters.circle && !contains(w.circle?.name, filters.circle)`. -/
def circleFail (f : Criteria) (w : Work) : Bool :=
  !f.circle.isEmpty && !containsCI (w.circle.getD []) f.circle

/-- `filters.summary && !contains(w.summary, filters.summary)`. -/
def summaryFail (f : Criteria) (w : Work) : Bool :=
  !f.summary.isEmpty && !containsCI (w.summary.getD []) f.summary

/-- `filters.purchase_event && !contains(w.purchase_event?.name, ...)`. -/
def eventFail (f : Criteria) (w : Work) : Bool :=
  !f.purchase_event.isEmpty && !containsCI (w.purchase_event.getD []) f.purchase_event

/-- `filters.tags && !(w.tags || []).some((t) => contains(t, filters.tags))`. -/
def tagsFail (f : Criteria) (w : Work) : Bool :=
  !f.tags.isEmpty && !((w.tags.getD []).any (fun t => containsCI t f.tags))

/-- `filters.extra && !contains(JSON.stringify(w.extra || \x7b\x7d), filters.extra)`. -/
def extraFail (f : Criteria) (w : Work) : Bool :=
  !f.extra.isEmpty && !containsCI (jsonStringify (w.extra.getD [])) f.extra

/-- `minPrice !== null && (w.price == null || Number(w.price) < minPrice)`. -/
def priceMinFail (f : Criteria) (w : Work) : Bool :=
  match f.price_min with
  | none => false
  | some m =>
    match w.price with
    | none => true
    | some p => decide (p < m)

/-- `maxPrice !== null && (w.price == null || Number(w.price) > maxPrice)`. -/
def priceMaxFail (f : Criteria) (w : Work) : Bool :=
  match f.price_max with
  | none => false
  | some m =>
    match w.price with
    | none => true
    | some p => decide (m < p)

/-- `fromDate !== null && (d == null || d < fromDate)` with
`d = dateVal(w.purchase_date)`. -/
def dateFromFail (f : Criteria) (w : Work) : Bool :=
  match f.date_from with
  | none => false
  | some dmin =>
    match w.purchase_date with
    | none => true
    | some d => decide (d < dmin)

/-- `toDate !== null && (d == null || d > toDate)`. -/
def dateToFail (f : Criteria) (w : Work) : Bool :=
  match f.date_to with
  | none => false
  | some dmax =>
    match w.purchase_date with
    | none => true
    | some d => decide (dmax < d)

/-- `filters.is_r18 !== "all" && Boolean(w.is_r18) !== (filters.is_r18 === "true")`. -/
def r18Fail (f : Criteria) (w : Work) : Bool :=
  !(decide (f.is_r18 = "all".toList)) &&
    ((w.is_r18.getD false) != decide (f.is_r18 = "true".toList))

/-- The `works.filter` callback of `filteredWorks`: the literal chain of
early `return false` checks, then `return true`. -/
def matchesWork (f : Criteria) (w : Work) : Bool :=
  if titleFail f w then false
  else if authorFail f w then false
  else if circleFail f w then false
  else if summaryFail f w then false
  else if eventFail f w then false
  else if tagsFail f w then false
  else if extraFail f w then false
  else if priceMinFail f w then false
  else if priceMaxFail f w then false
  else if dateFromFail f w then false
  else if dateToFail f w then false
  else if r18Fail f w then false
  else true

/-- `filteredWorks`: `works.filter((w) => ...)`. -/
def filteredWorks (f : Criteria) (works : List Work) : List Work :=
  works.filter (fun w => matchesWork f w)

/-! Spec-side reading of the same criteria, one predicate per criterion as
section 4.4 of the specification words them: a criterion is satisfied when
it is unset or the work meets it; bounds are inclusive. -/

/-- Spec 4.4: title criterion satisfied (unset, or case-insensitive
substring of the work's title). -/
def titleOk (f : Criteria) (w : Work) : Bool :=
  f.title.isEmpty || containsCI (w.title.getD []) f.title

/-- Spec 4.4: author-name criterion satisfied. -/
def authorOk (f : Criteria) (w : Work) : Bool :=
  f.author.isEmpty || containsCI (w.author.getD []) f.author

/-- Spec 4.4: circle-name criterion satisfied. -/
def circleOk (f : Criteria) (w : Work) : Bool :=
  f.circle.isEmpty || containsCI (w.circle.getD []) f.circle

/-- Spec 4.4: summary criterion satisfied. -/
def summaryOk (f : Criteria) (w : Work) : Bool :=
  f.summary.isEmpty || containsCI (w.summary.getD []) f.summary

/-- Spec 4.4: event-name criterion satisfied. -/
def eventOk (f : Criteria) (w : Work) : Bool :=
  f.purchase_event.isEmpty || containsCI (w.purchase_event.getD []) f.purchase_event

/-- Spec 4.4: tags criterion satisfied (unset, or some tag of the work
matches, a logical OR across the work's tags). -/
def tagsOk (f : Criteria) (w : Work) : Bool :=
  f.tags.isEmpty || (w.tags.getD []).any (fun t => containsCI t f.tags)

/-- Spec 4.4: extra-text criterion satisfied against the flattened
rendering of the extra-attribute mapping. -/
def extraOk (f : Criteria) (w : Work) : Bool :=
  f.extra.isEmpty || containsCI (jsonStringify (w.extra.getD [])) f.extra

/-- Spec 4.4: inclusive lower price bound; a work with no price fails a
set bound. -/
def priceMinOk (f : Criteria) (w : Work) : Bool :=
  match f.price_min with
  | none => true
  | some m =>
    match w.price with
    | none => false
    | some p => decide (m ≤ p)

/-- Spec 4.4: inclusive upper price bound; a work with no price fails a
set bound. -/
def priceMaxOk (f : Criteria) (w : Work) : Bool :=
  match f.price_max with
  | none => true
  | some m =>
    match w.price with
    | none => false
    | some p => decide (p ≤ m)

/-- Spec 4.4: inclusive lower purchase-date bound; a work with no
purchase date fails a set bound. -/
def dateFromOk (f : Criteria) (w : Work) : Bool :=
  match f.date_from with
  | none => true
  | some dmin =>
    match w.purchase_date with
    | none => false
    | some d => decide (dmin ≤ d)

/-- Spec 4.4: inclusive upper purchase-date bound; a work with no
purchase date fails a set bound. -/
def dateToOk (f : Criteria) (w : Work) : Bool :=
  match f.date_to with
  | none => true
  | some dmax =>
    match w.purchase_date with
    | none => false
    | some d => decide (d ≤ dmax)

/-- Spec 4.4: tri-state R-18 criterion; `"all"` imposes no constraint,
otherwise the work's flag (absent counted as `false`) must match the
selected branch. -/
def r18Ok (f : Criteria) (w : Work) : Bool :=
  if f.is_r18 = "all".toList then true
  else (w.is_r18.getD false) == decide (f.is_r18 = "true".toList)

/-- Spec 4.4: a work satisfies the criteria when it satisfies every
criterion — the logical AND across all criteria. -/
def satisfiesAll (f : Criteria) (w : Work) : Bool :=
  titleOk f w && (authorOk f w && (circleOk f w && (summaryOk f w &&
    (eventOk f w && (tagsOk f w && (extraOk f w && (priceMinOk f w &&
      (priceMaxOk f w && (dateFromOk f w && (dateToOk f w && r18Ok f w))))))))))

/-- The criteria configuration with nothing set: all text criteria empty,
no price or date bounds, R-18 select on `"all"`. -/
def noCriteria : Criteria :=
  ⟨[], [], [], [], [], [], [], none, none, none, none, "all".toList⟩

theorem not_titleFail (f : Criteria) (w : Work) : (!titleFail f w) = titleOk f w := by
  simp [titleFail, titleOk]

theorem not_authorFail (f : Criteria) (w : Work) : (!authorFail f w) = authorOk f w := by
  simp [authorFail, authorOk]

theorem not_circleFail (f : Criteria) (w : Work) : (!circleFail f w) = circleOk f w := by
  simp [circleFail, circleOk]

theorem not_summaryFail (f : Criteria) (w : Work) : (!summaryFail f w) = summaryOk f w := by
  simp [summaryFail, summaryOk]

theorem not_eventFail (f : Criteria) (w : Work) : (!eventFail f w) = eventOk f w := by
  simp [eventFail, eventOk]

theorem not_tagsFail (f : Criteria) (w : Work) : (!tagsFail f w) = tagsOk f w := by
  simp [tagsFail, tagsOk]

theorem not_extraFail (f : Criteria) (w : Work) : (!extraFail f w) = extraOk f w := by
  simp [extraFail, extraOk]

theorem not_priceMinFail (f : Criteria) (w : Work) :
    (!priceMinFail f w) = priceMinOk f w := by
  unfold priceMinFail priceMinOk
  cases f.price_min with
  | none => rfl
  | some m =>
    cases w.price with
    | none => rfl
    | some p => simp [← decide_not, not_lt]

theorem not_priceMaxFail (f : Criteria) (w : Work) :
    (!priceMaxFail f w) = priceMaxOk f w := by
  unfold priceMaxFail priceMaxOk
  cases f.price_max with
  | none => rfl
  | some m =>
    cases w.price with
    | none => rfl
    | some p => simp [← decide_not, not_lt]

theorem not_dateFromFail (f : Criteria) (w : Work) :
    (!dateFromFail f w) = dateFromOk f w := by
  unfold dateFromFail dateFromOk
  cases f.date_from with
  | none => rfl
  | some dmin =>
    cases w.purchase_date with
    | none => rfl
    | some d => simp [← decide_not, not_lt]

theorem not_dateToFail (f : Criteria) (w : Work) :
    (!dateToFail f w) = dateToOk f w := by
  unfold dateToFail dateToOk
  cases f.date_to with
  | none => rfl
  | some dmax =>
    cases w.purchase_date with
    | none => rfl
    | some d => simp [← decide_not, not_lt]

theorem not_r18Fail (f : Criteria) (w : Work) : (!r18Fail f w) = r18Ok f w := by
  unfold r18Fail r18Ok
  by_cases h : f.is_r18 = "all".toList
  · simp [h]
  · cases hb : w.is_r18.getD false <;> simp [h, hb, Bool.beq_eq_decide_eq]

/-- Helper: an early `return false` check folds into a conjunction. -/
theorem if_fail_chain (b r : Bool) : (if b = true then false else r) = (!b && r) := by
  cases b <;> simp

/-- Refinement: the early-return chain of the `works.filter` callback
computes exactly the spec's conjunction of per-criterion predicates. -/
theorem matchesWork_eq_satisfiesAll (f : Criteria) (w : Work) :
    matchesWork f w = satisfiesAll f w := by
  unfold matchesWork satisfiesAll
  simp only [if_fail_chain, Bool.and_true]
  rw [not_titleFail, not_authorFail, not_circleFail, not_summaryFail, not_eventFail,
    not_tagsFail, not_extraFail, not_priceMinFail, not_priceMaxFail,
    not_dateFromFail, not_dateToFail, not_r18Fail]

/-- C1: for every list of works and every criteria configuration, the
filter's result is the ordered subset of the input works satisfying all
set criteria: it equals the input filtered by the spec's conjunction of
per-criterion predicates (so every returned work is an input work
satisfying each set criterion, and every input work satisfying all set
criteria is returned), and it is a sublist of the input, hence preserves
the input's relative order. -/
theorem filteredWorks_ordered_subset_all_criteria (f : Criteria) (works : List Work) :
    filteredWorks f works = works.filter (fun w => satisfiesAll f w) ∧
    List.Sublist (filteredWorks f works) works := by
  constructor
  · exact List.filter_congr (fun w _ => matchesWork_eq_satisfiesAll f w)
  · exact List.filter_sublist works

/-- C2: filtering with no criteria set (all text criteria empty, no price
or date bounds, R-18 select on its "no constraint" value) returns the
whole input list unchanged, in order. -/
theorem filteredWorks_noCriteria_id (works : List Work) :
    filteredWorks noCriteria works = works := by
  apply List.filter_eq_self.mpr
  intro w _
  simp [matchesWork, titleFail, authorFail, circleFail, summaryFail, eventFail,
    tagsFail, extraFail, priceMinFail, priceMaxFail, dateFromFail, dateToFail,
    r18Fail, noCriteria]

/-- C9: the filter is a pure read: its output is a sublist of the input,
so every record it returns is an element of the input list with the very
same field values and in the input's order; being a plain function of
`(criteria, works)`, its result depends on nothing else. -/
theorem filteredWorks_pure (f : Criteria) (works : List Work) :
    List.Sublist (filteredWorks f works) works ∧
    ∀ w, w ∈ filteredWorks f works → w ∈ works := by
  refine ⟨List.filter_sublist works, fun w hw => ?_⟩
  exact (List.filter_sublist works).subset hw

/-- A demo work: all optional fields absent. -/
def wEmpty : Work := ⟨none, none, none, none, none, none, none, none, none, none⟩

/-- A demo work with the fields the example scenarios of the spec use. -/
def wSample : Work :=
  ⟨some "Sample".toList, some "Taro".toList, none, none, none,
    some ["comedy".toList, "drama".toList],
    some [("shelf".toList, "A2".toList)], some 1200, some 19700, some false⟩

/-- Witness for C9 at a concrete input. -/
theorem filteredWorks_pure_witness : wSample ∈ [wSample] :=
  (filteredWorks_pure noCriteria [wSample]).2 wSample (by decide)

/-- C3: price bounds are inclusive and a missing price fails a set bound:
with `priceMin = m` set, a work with no price, or a price strictly below
`m`, is excluded, while a work priced exactly `m` passes the lower-bound
criterion; symmetrically for `priceMax`. -/
theorem priceBounds_inclusive (f : Criteria) (w : Work) (m : Rat) :
    (f.price_min = some m → w.price = none → matchesWork f w = false) ∧
    (f.price_min = some m → ∀ p, w.price = some p → p < m → matchesWork f w = false) ∧
    (f.price_min = some m → w.price = some m → priceMinOk f w = true) ∧
    (f.price_max = some m → w.price = none → matchesWork f w = false) ∧
    (f.price_max = some m → ∀ p, w.price = some p → m < p → matchesWork f w = false) ∧
    (f.price_max = some m → w.price = some m → priceMaxOk f w = true) := by
  refine ⟨fun h1 h2 => ?_, fun h1 p h2 hlt => ?_, fun h1 h2 => ?_,
    fun h1 h2 => ?_, fun h1 p h2 hlt => ?_, fun h1 h2 => ?_⟩
  · rw [matchesWork_eq_satisfiesAll]
    have hmin : priceMinOk f w = false := by unfold priceMinOk; rw [h1, h2]
    simp [satisfiesAll, hmin]
  · rw [matchesWork_eq_satisfiesAll]
    have hmin : priceMinOk f w = false := by
      unfold priceMinOk; rw [h1, h2]; simp [not_le.mpr hlt]
    simp [satisfiesAll, hmin]
  · unfold priceMinOk; rw [h1, h2]; simp
  · rw [matchesWork_eq_satisfiesAll]
    have hmax : priceMaxOk f w = false := by unfold priceMaxOk; rw [h1, h2]
    simp [satisfiesAll, hmax]
  · rw [matchesWork_eq_satisfiesAll]
    have hmax : priceMaxOk f w = false := by
      unfold priceMaxOk; rw [h1, h2]; simp [not_le.mpr hlt]
    simp [satisfiesAll, hmax]
  · unfold priceMaxOk; rw [h1, h2]; simp

/-- Witness for C3 at a concrete input: `priceMin = 500` excludes a work
with no price. -/
theorem priceBounds_inclusive_witness :
    matchesWork { noCriteria with price_min := some 500 } wEmpty = false :=
  (priceBounds_inclusive { noCriteria with price_min := some 500 } wEmpty 500).1 rfl rfl

/-- C4: with a non-empty tags criterion, the work passes the tags
criterion iff at least one of its tag names contains the criterion as a
case-insensitive substring (OR across the work's tags); a work with an
empty or missing tag list fails it; and it combines conjunctively with
the other criteria: failing it excludes the work outright, and a work the
filter keeps passed it. -/
theorem tagsCriterion_or_across_tags (f : Criteria) (w : Work) (hne : f.tags ≠ []) :
    (tagsOk f w = true ↔ ∃ t ∈ w.tags.getD [], containsCI t f.tags = true) ∧
    (∀ t, containsCI t f.tags = true ↔ jsLower f.tags <:+: jsLower t) ∧
    (w.tags.getD [] = [] → tagsOk f w = false) ∧
    (tagsOk f w = false → matchesWork f w = false) ∧
    (matchesWork f w = true → tagsOk f w = true) := by
  have hie : f.tags.isEmpty = false := List.isEmpty_eq_false.mpr hne
  have key : tagsOk f w = false → matchesWork f w = false := by
    intro h
    rw [matchesWork_eq_satisfiesAll]
    simp [satisfiesAll, h]
  refine ⟨?_, ?_, ?_, key, ?_⟩
  · simp [tagsOk, hie]
  · intro t
    unfold containsCI
    exact decide_eq_true_iff
  · intro h
    simp [tagsOk, hie, h]
  · intro hm
    cases h : tagsOk f w with
    | true => rfl
    | false => rw [key h] at hm; exact hm

/-- Witness for C4 at a concrete input: a work the filter keeps under the
tags criterion `"DRA"` passes the tags criterion. -/
theorem tagsCriterion_witness :
    tagsOk { noCriteria with tags := "DRA".toList } wSample = true :=
  (tagsCriterion_or_across_tags { noCriteria with tags := "DRA".toList } wSample
    (by decide)).2.2.2.2 (by decide)

/-- C5: missing values fail bounded and non-empty criteria: a work
lacking the field of a set text criterion is excluded, a work with no
purchase date is excluded by either set date bound, and the date bounds
are inclusive (a work dated exactly on a bound passes that bound's
criterion). -/
theorem missingValues_fail (f : Criteria) (w : Work) :
    (f.title ≠ [] → w.title = none → matchesWork f w = false) ∧
    (f.author ≠ [] → w.author = none → matchesWork f w = false) ∧
    (f.circle ≠ [] → w.circle = none → matchesWork f w = false) ∧
    (f.summary ≠ [] → w.summary = none → matchesWork f w = false) ∧
    (f.purchase_event ≠ [] → w.purchase_event = none → matchesWork f w = false) ∧
    (∀ d : Int, f.date_from = some d → w.purchase_date = none → matchesWork f w = false) ∧
    (∀ d : Int, f.date_to = some d → w.purchase_date = none → matchesWork f w = false) ∧
    (∀ d : Int, f.date_from = some d → w.purchase_date = some d → dateFromOk f w = true) ∧
    (∀ d : Int, f.date_to = some d → w.purchase_date = some d → dateToOk f w = true) := by
  refine ⟨fun hne hnone => ?_, fun hne hnone => ?_, fun hne hnone => ?_,
    fun hne hnone => ?_, fun hne hnone => ?_, fun d h1 h2 => ?_, fun d h1 h2 => ?_,
    fun d h1 h2 => ?_, fun d h1 h2 => ?_⟩
  · rw [matchesWork_eq_satisfiesAll]
    have h : titleOk f w = false := by
      simp [titleOk, containsCI, jsLower, hnone, hne, List.isEmpty_iff]
    simp [satisfiesAll, h]
  · rw [matchesWork_eq_satisfiesAll]
    have h : authorOk f w = false := by
      simp [authorOk, containsCI, jsLower, hnone, hne, List.isEmpty_iff]
    simp [satisfiesAll, h]
  · rw [matchesWork_eq_satisfiesAll]
    have h : circleOk f w = false := by
      simp [circleOk, containsCI, jsLower, hnone, hne, List.isEmpty_iff]
    simp [satisfiesAll, h]
  · rw [matchesWork_eq_satisfiesAll]
    have h : summaryOk f w = false := by
      simp [summaryOk, containsCI, jsLower, hnone, hne, List.isEmpty_iff]
    simp [satisfiesAll, h]
  · rw [matchesWork_eq_satisfiesAll]
    have h : eventOk f w = false := by
      simp [eventOk, containsCI, jsLower, hnone, hne, List.isEmpty_iff]
    simp [satisfiesAll, h]
  · rw [matchesWork_eq_satisfiesAll]
    have h : dateFromOk f w = false := by unfold dateFromOk; rw [h1, h2]
    simp [satisfiesAll, h]
  · rw [matchesWork_eq_satisfiesAll]
    have h : dateToOk f w = false := by unfold dateToOk; rw [h1, h2]
    simp [satisfiesAll, h]
  · unfold dateFromOk; rw [h1, h2]; simp
  · unfold dateToOk; rw [h1, h2]; simp

/-- Witness for C5 at a concrete input: a work without a title is
excluded by a non-empty title criterion. -/
theorem missingValues_fail_witness :
    matchesWork { noCriteria with title := "x".toList } wEmpty = false :=
  (missingValues_fail { noCriteria with title := "x".toList } wEmpty).1 (by decide) rfl

/-- C6: the R-18 criterion is tri-state. On `"all"` it constrains
nothing; set to true-only, exactly the works whose flag is `false` or
absent fail it; set to false-only, exactly the works whose flag is `true`
fail it; failing it excludes the work from the filter's result. -/
theorem r18_tristate (f : Criteria) (w : Work) :
    (f.is_r18 = "all".toList → r18Ok f w = true) ∧
    (f.is_r18 = "true".toList → (r18Ok f w = false ↔ w.is_r18.getD false = false)) ∧
    (f.is_r18 = "false".toList → (r18Ok f w = false ↔ w.is_r18.getD false = true)) ∧
    (r18Ok f w = false → matchesWork f w = false) ∧
    (matchesWork f w = true → r18Ok f w = true) := by
  have key : r18Ok f w = false → matchesWork f w = false := by
    intro h
    rw [matchesWork_eq_satisfiesAll]
    simp [satisfiesAll, h]
  refine ⟨?_, ?_, ?_, key, ?_⟩
  · intro h
    simp [r18Ok, h]
  · intro h
    unfold r18Ok
    rw [h, if_neg (by decide)]
    have hd : decide (("true".toList : Str) = "true".toList) = true := by decide
    rw [hd]
    cases hb : w.is_r18.getD false <;> simp
  · intro h
    unfold r18Ok
    rw [h, if_neg (by decide)]
    have hd : decide (("false".toList : Str) = "true".toList) = false := by decide
    rw [hd]
    cases hb : w.is_r18.getD false <;> simp
  · intro hm
    cases h : r18Ok f w with
    | true => rfl
    | false => rw [key h] at hm; exact hm

/-- Witness for C6 at a concrete input: with the true-only selection, a
work whose flag is false fails the criterion. -/
theorem r18_tristate_witness :
    r18Ok { noCriteria with is_r18 := "true".toList } wEmpty = false ↔
      wEmpty.is_r18.getD false = false :=
  (r18_tristate { noCriteria with is_r18 := "true".toList } wEmpty).2.1 rfl

/-- C7: with a non-empty extra-text criterion, the work passes it iff the
flattened textual rendering of its extra-attribute mapping (the
`JSON.stringify` of the mapping, the empty mapping when absent) contains
the criterion as a case-insensitive substring; the criterion combines
conjunctively with the rest. -/
theorem extraText_criterion (f : Criteria) (w : Work) (hne : f.extra ≠ []) :
    (extraOk f w = true ↔ jsLower f.extra <:+: jsLower (jsonStringify (w.extra.getD []))) ∧
    (w.extra = none → (extraOk f w = true ↔ jsLower f.extra <:+: jsLower (jsonStringify []))) ∧
    (extraOk f w = false → matchesWork f w = false) ∧
    (matchesWork f w = true → extraOk f w = true) := by
  have hie : f.extra.isEmpty = false := List.isEmpty_eq_false.mpr hne
  have key : extraOk f w = false → matchesWork f w = false := by
    intro h
    rw [matchesWork_eq_satisfiesAll]
    simp [satisfiesAll, h]
  refine ⟨?_, ?_, key, ?_⟩
  · simp [extraOk, hie, containsCI]
  · intro h
    simp [extraOk, hie, containsCI, h]
  · intro hm
    cases h : extraOk f w with
    | true => rfl
    | false => rw [key h] at hm; exact hm

/-- Witness for C7 at a concrete input: the criterion `"shelf"` matches
the rendering of the mapping holding key `shelf`. -/
theorem extraText_criterion_witness :
    extraOk { noCriteria with extra := "shelf".toList } wSample = true :=
  (extraText_criterion { noCriteria with extra := "shelf".toList } wSample
    (by decide)).2.2.2 (by decide)

/-! The extra-attribute object built by `extraJson` from the form's
dynamic key/value rows. -/

/-- `String.prototype.trim`: strip leading and trailing whitespace. -/
def jsTrim (s : Str) : Str :=
  ((s.dropWhile Char.isWhitespace).reverse.dropWhile Char.isWhitespace).reverse

/-- One key/value row of the form's `extra` list. -/
structure Row where
  key : Str
  value : Str
deriving DecidableEq

/-- `emptyExtraRow()`: `\x7b key: "", value: "" \x7d`. -/
def emptyExtraRow : Row := ⟨[], []⟩

/-- JS object property assignment `obj[k] = v` on a string-keyed object
kept in insertion order: an existing key keeps its position and receives
the new value, a new key is appended at the end. -/
def objInsert (obj : List (Str × Str)) (k v : Str) : List (Str × Str) :=
  if obj.any (fun kv => decide (kv.1 = k)) then
    obj.map (fun kv => if kv.1 = k then (k, v) else kv)
  else obj ++ [(k, v)]

/-- One iteration of the `extraJson` loop:
`if (row.key.trim()) obj[row.key.trim()] = row.value;`. -/
def extraStep (obj : List (Str × Str)) (r : Row) : List (Str × Str) :=
  if (jsTrim r.key).isEmpty then obj else objInsert obj (jsTrim r.key) r.value

/-- `extraJson`: the object accumulated over all submitted rows,
starting from the empty object. -/
def extraJson (rows : List Row) : List (Str × Str) :=
  rows.foldl extraStep []

/-- JS property read `obj[k]` on the ordered string-keyed object. -/
def lookupObj (obj : List (Str × Str)) (k : Str) : Option Str :=
  match obj with
  | [] => none
  | kv :: t => if kv.1 = k then some kv.2 else lookupObj t k

theorem lookupObj_map_replace (obj : List (Str × Str)) (k v : Str)
    (h : obj.any (fun kv => decide (kv.1 = k)) = true) :
    lookupObj (obj.map (fun kv => if kv.1 = k then (k, v) else kv)) k = some v := by
  induction obj with
  | nil => simp at h
  | cons kv t ih =>
    by_cases hk : kv.1 = k
    · simp [lookupObj, hk]
    · have h' : t.any (fun kv => decide (kv.1 = k)) = true := by
        simp [List.any_cons, hk] at h
        simpa using h
      simp [lookupObj, hk, ih h']

theorem lookupObj_append_new (obj : List (Str × Str)) (k v : Str)
    (h : obj.any (fun kv => decide (kv.1 = k)) = false) :
    lookupObj (obj ++ [(k, v)]) k = some v := by
  induction obj with
  | nil => simp [lookupObj]
  | cons kv t ih =>
    simp only [List.any_cons, Bool.or_eq_false_iff, decide_eq_false_iff_not] at h
    simp [lookupObj, h.1, ih h.2]

theorem lookupObj_insert_self (obj : List (Str × Str)) (k v : Str) :
    lookupObj (objInsert obj k v) k = some v := by
  unfold objInsert
  split
  · exact lookupObj_map_replace obj k v (by assumption)
  · next h => exact lookupObj_append_new obj k v (Bool.eq_false_iff.mpr h)

theorem lookupObj_map_replace_ne (obj : List (Str × Str)) (k k' v : Str)
    (hne : k' ≠ k) :
    lookupObj (obj.map (fun kv => if kv.1 = k' then (k', v) else kv)) k =
      lookupObj obj k := by
  induction obj with
  | nil => rfl
  | cons kv t ih =>
    by_cases hk : kv.1 = k'
    · have hkk : ¬kv.1 = k := by rw [hk]; exact hne
      simp [lookupObj, hk, hne, hkk, ih]
    · simp only [List.map_cons, if_neg hk]
      by_cases hkk : kv.1 = k
      · simp [lookupObj, hkk]
      · simp [lookupObj, hkk, ih]

theorem lookupObj_append_single_ne (obj : List (Str × Str)) (k k' v : Str)
    (hne : k' ≠ k) :
    lookupObj (obj ++ [(k', v)]) k = lookupObj obj k := by
  induction obj with
  | nil => simp [lookupObj, hne]
  | cons kv t ih => simp [lookupObj, ih]

theorem lookupObj_insert_ne (obj : List (Str × Str)) (k k' v : Str) (hne : k' ≠ k) :
    lookupObj (objInsert obj k' v) k = lookupObj obj k := by
  unfold objInsert
  split
  · exact lookupObj_map_replace_ne obj k k' v hne
  · exact lookupObj_append_single_ne obj k k' v hne

theorem keys_objInsert (obj : List (Str × Str)) (k v : Str) :
    (objInsert obj k v).map Prod.fst =
      if obj.any (fun kv => decide (kv.1 = k)) then obj.map Prod.fst
      else obj.map Prod.fst ++ [k] := by
  unfold objInsert
  split
  · rw [List.map_map]
    apply List.map_congr_left
    intro kv _
    by_cases hk : kv.1 = k
    · simp [hk]
    · simp [hk]
  · simp

theorem nodupKeys_objInsert (obj : List (Str × Str)) (k v : Str)
    (h : (obj.map Prod.fst).Nodup) : ((objInsert obj k v).map Prod.fst).Nodup := by
  rw [keys_objInsert]
  split
  · exact h
  · next hany =>
    have hk : k ∉ obj.map Prod.fst := by
      intro hmem
      obtain ⟨kv, hkv, hfst⟩ := List.mem_map.mp hmem
      have : obj.any (fun kv => decide (kv.1 = k)) = true :=
        List.any_eq_true.mpr ⟨kv, hkv, by simp [hfst]⟩
      exact absurd this (by simpa using hany)
    rw [List.nodup_append]
    refine ⟨h, List.nodup_singleton k, ?_⟩
    intro a ha hb
    rw [List.mem_singleton] at hb
    exact hk (hb ▸ ha)

theorem nodupKeys_foldl (rows : List Row) :
    ∀ obj : List (Str × Str), (obj.map Prod.fst).Nodup →
      ((rows.foldl extraStep obj).map Prod.fst).Nodup := by
  induction rows with
  | nil => intro obj h; simpa using h
  | cons r t ih =>
    intro obj h
    rw [List.foldl_cons]
    apply ih
    unfold extraStep
    split
    · exact h
    · exact nodupKeys_objInsert obj _ _ h

theorem getLast?_cons_of_some (a rr : α) (l : List α) (h : l.getLast? = some rr) :
    (a :: l).getLast? = some rr := by
  cases l with
  | nil => simp at h
  | cons b t => rw [List.getLast?_cons_cons]; exact h

theorem lookup_foldl (rows : List Row) (k : Str) (hk : k ≠ []) :
    ∀ obj : List (Str × Str),
      lookupObj (rows.foldl extraStep obj) k =
        match (rows.filter (fun r => decide (jsTrim r.key = k))).getLast? with
        | some r => some r.value
        | none => lookupObj obj k := by
  induction rows with
  | nil => intro obj; simp
  | cons r t ih =>
    intro obj
    rw [List.foldl_cons]
    simp only [List.filter_cons]
    by_cases hblank : (jsTrim r.key).isEmpty
    · have hstep : extraStep obj r = obj := by unfold extraStep; rw [if_pos hblank]
      have hfilt : ¬(decide (jsTrim r.key = k) = true) := by
        have hnil : jsTrim r.key = [] := List.isEmpty_iff.mp hblank
        simp [hnil, Ne.symm hk]
      rw [hstep, if_neg hfilt, ih]
    · by_cases hkey : jsTrim r.key = k
      · have hstep : extraStep obj r = objInsert obj k r.value := by
          unfold extraStep; rw [if_neg hblank, hkey]
        rw [hstep, if_pos (by simp [hkey]), ih]
        cases hrel : (t.filter (fun r => decide (jsTrim r.key = k))).getLast? with
        | some rr => rw [getLast?_cons_of_some r rr _ hrel]
        | none =>
          have hnil : t.filter (fun r => decide (jsTrim r.key = k)) = [] :=
            List.getLast?_eq_none_iff.mp hrel
          rw [hnil]
          exact lookupObj_insert_self obj k r.value
      · have hstep : extraStep obj r = objInsert obj (jsTrim r.key) r.value := by
          unfold extraStep; rw [if_neg hblank]
        rw [hstep, if_neg (by simp [hkey]), ih]
        cases hrel : (t.filter (fun r => decide (jsTrim r.key = k))).getLast? with
        | some rr => rfl
        | none => exact lookupObj_insert_ne obj k (jsTrim r.key) r.value hkey

theorem foldl_filter_blank (rows : List Row) :
    ∀ obj : List (Str × Str),
      (rows.filter (fun r => !(jsTrim r.key).isEmpty)).foldl extraStep obj =
        rows.foldl extraStep obj := by
  induction rows with
  | nil => intro obj; rfl
  | cons r t ih =>
    intro obj
    simp only [List.filter_cons]
    by_cases hblank : (jsTrim r.key).isEmpty
    · rw [if_neg (by simp [hblank]), List.foldl_cons,
        show extraStep obj r = obj from by unfold extraStep; rw [if_pos hblank]]
      exact ih obj
    · rw [if_pos (by simp [hblank]), List.foldl_cons, List.foldl_cons]
      exact ih _

/-- C8: the extra-attribute mapping built from the submitted rows has no
duplicate keys; a read of any non-empty key returns the value of the last
row whose trimmed key equals it (last write wins), and nothing when no
such row exists; and rows whose key trims to the empty string contribute
nothing (dropping them leaves the mapping unchanged). -/
theorem extraJson_spec (rows : List Row) :
    ((extraJson rows).map Prod.fst).Nodup ∧
    (∀ k : Str, k ≠ [] →
      lookupObj (extraJson rows) k =
        ((rows.filter (fun r => decide (jsTrim r.key = k))).getLast?).map Row.value) ∧
    extraJson (rows.filter (fun r => !(jsTrim r.key).isEmpty)) = extraJson rows := by
  refine ⟨nodupKeys_foldl rows [] (by simp), fun k hk => ?_, foldl_filter_blank rows []⟩
  rw [extraJson, lookup_foldl rows k hk []]
  cases hrel : (rows.filter (fun r => decide (jsTrim r.key = k))).getLast? with
  | some rr => rfl
  | none => rfl

/-- Demo rows for the C8 witness: a blank-key row, then two rows sharing
the key `place` (after trimming), the last of which wins. -/
def demoRows : List Row :=
  [⟨"  ".toList, "ignored".toList⟩,
   ⟨"place".toList, "box1".toList⟩,
   ⟨" place ".toList, "box2".toList⟩]

/-- Witness for C8 at a concrete input: the stored value for `place` is
the last submitted one. -/
theorem extraJson_spec_witness :
    lookupObj (extraJson demoRows) "place".toList =
      ((demoRows.filter (fun r => decide (jsTrim r.key = "place".toList))).getLast?).map
        Row.value :=
  (extraJson_spec demoRows).2.1 "place".toList (by decide)

/-! The operations of `App` that touch the form's extra-attribute row
list (`form.extra`), modelled as a transition function on the list. -/

/-- One user/form event affecting `form.extra`. -/
inductive FormOp where
  /-- `addExtraRow`: append a fresh empty row. -/
  | addRow : FormOp
  /-- `updateExtra(index, "key", value)`: replace the key of row `i`. -/
  | setKey : Nat → Str → FormOp
  /-- `updateExtra(index, "value", value)`: replace the value of row `i`. -/
  | setVal : Nat → Str → FormOp
  /-- `removeExtraRow(index)`: drop row `i`, refilling with one empty row
  when nothing is left. -/
  | removeRow : Nat → FormOp
  /-- `submit`: the form is reset to its initial state. -/
  | submitReset : FormOp
  /-- `startEdit(work)`: load the work's extra attributes into rows, or a
  single empty row when the work has none. -/
  | startEditOp : Work → FormOp
  /-- `cancelEdit`: the form is reset to its initial state. -/
  | cancelEditOp : FormOp
deriving DecidableEq

/-- The effect of one operation on the `form.extra` row list. -/
def applyOp (rows : List Row) : FormOp → List Row
  | .addRow => rows ++ [emptyExtraRow]
  | .setKey i v =>
    match rows[i]? with
    | some r => rows.set i { r with key := v }
    | none => rows
  | .setVal i v =>
    match rows[i]? with
    | some r => rows.set i { r with value := v }
    | none => rows
  | .removeRow i =>
    let next := (rows.enum.filter (fun p => decide (p.1 ≠ i))).map Prod.snd
    if next.isEmpty then [emptyExtraRow] else next
  | .submitReset => [emptyExtraRow]
  | .startEditOp w =>
    match w.extra with
    | some m => if m.isEmpty then [emptyExtraRow] else m.map (fun kv => ⟨kv.1, kv.2⟩)
    | none => [emptyExtraRow]
  | .cancelEditOp => [emptyExtraRow]

/-- C10: the form's extra-attribute row list is never empty: the initial
state has one row, every operation maps a non-empty row list to a
non-empty row list, and any sequence of operations from the initial
state leaves at least one row. -/
theorem extraRows_never_empty :
    ([emptyExtraRow] : List Row) ≠ [] ∧
    (∀ (rows : List Row) (op : FormOp), rows ≠ [] → applyOp rows op ≠ []) ∧
    (∀ ops : List FormOp, ops.foldl applyOp [emptyExtraRow] ≠ []) := by
  have step : ∀ (rows : List Row) (op : FormOp), rows ≠ [] → applyOp rows op ≠ [] := by
    intro rows op hne
    cases op with
    | addRow => simp [applyOp]
    | setKey i v =>
      simp only [applyOp]
      cases h : rows[i]? with
      | some r =>
        intro hs
        exact hne (by simpa using congrArg List.length hs)
      | none => exact hne
    | setVal i v =>
      simp only [applyOp]
      cases h : rows[i]? with
      | some r =>
        intro hs
        exact hne (by simpa using congrArg List.length hs)
      | none => exact hne
    | removeRow i =>
      simp only [applyOp]
      split
      · simp
      · next h => simpa using h
    | submitReset => simp [applyOp]
    | startEditOp w =>
      simp only [applyOp]
      cases hm : w.extra with
      | some m =>
        cases m with
        | nil => simp
        | cons kv t => simp
      | none => simp
    | cancelEditOp => simp [applyOp]
  refine ⟨by simp, step, ?_⟩
  have run : ∀ (ops : List FormOp) (rows : List Row), rows ≠ [] →
      ops.foldl applyOp rows ≠ [] := by
    intro ops
    induction ops with
    | nil => intro rows h; exact h
    | cons op t ih =>
      intro rows h
      rw [List.foldl_cons]
      exact ih _ (step rows op h)
  exact fun ops => run ops [emptyExtraRow] (by simp)

/-- Witness for C10 at a concrete input: removing the only row leaves a
non-empty row list. -/
theorem extraRows_never_empty_witness :
    applyOp [emptyExtraRow] (FormOp.removeRow 0) ≠ [] :=
  extraRows_never_empty.2.1 [emptyExtraRow] (FormOp.removeRow 0) (by simp)
